import Mathlib

/-!
Verification of the 2024 presidential polling data pipeline.

The repository contains two independently evolved pipelines over the same
kind of tabular polling data:

* the simplified processor (`comprehensive_polling_processor.py`,
  class `SimplifiedPollingProcessor`), and
* the modular pipeline (`processing-pipeline-files/`: `cleaners.py`,
  `feature_engineering.py`, `config.py`, `main.py`).

Rows of the in-memory table are modelled as structures whose fields are the
columns the verified claims touch; missing cells (pandas `NaN`/`NaT`) are
modelled with `Option`.  Numeric columns are modelled with `ℚ` where the
source only compares, defaults and clips values, and with `ℝ` where the
source computes square roots (margin of error, confidence intervals).  The
finalizer, whose behaviour is column-generic, is modelled over tables whose
rows are association lists from column names to a `Value` type.
-/

namespace PollingModel

/-! ## String helpers -/

/-- Model of pandas `.str.strip()` (Python `str.strip` with no argument):
drop leading and trailing whitespace.  Written over the character list so
that it evaluates inside the kernel. -/
def pyStrip (s : String) : String :=
  ⟨((s.data.dropWhile Char.isWhitespace).reverse.dropWhile
      Char.isWhitespace).reverse⟩

/-- Model of pandas `.str.lower()`: lower-case every character. -/
def pyLower (s : String) : String :=
  ⟨s.data.map Char.toLower⟩

/-! ## Static configuration

Transcribed from `SimplifiedPollingProcessor` (class constants) and from
`config.py` (`Config`).  Both variants configure the same swing states and
main candidates. -/

def SWING_STATES : List String :=
  ["Arizona", "Georgia", "Michigan", "Nevada", "North Carolina",
   "Pennsylvania", "Wisconsin"]

def MAIN_CANDIDATES : List String :=
  ["Donald Trump", "Joe Biden", "Kamala Harris"]

/-- Population mapping of the simplified processor
(`SimplifiedPollingProcessor.POPULATION_MAPPING`). -/
def POPULATION_MAPPING : List (String × String) :=
  [("v", "Registered voters"), ("rv", "Registered voters"),
   ("lv", "Likely voters"), ("a", "All adults")]

/-- Population mapping of the modular variant
(`feature_engineering.add_methodology_features`, local `population_mapping`). -/
def population_mapping_modular : List (String × String) :=
  [("a", "(All)"), ("all", "(All)"), ("rv", "Registered voters"),
   ("lv", "Likely voters"), ("v", "(All)")]

/-! ## Row model

`RawRow` is one input record restricted to the columns the claims need.
All fields are optional: any cell of the raw CSV can be missing. -/

structure RawRow where
  candidate_name : String
  pct : Option ℚ
  population : Option String
  state : Option String
  sample_size : Option ℚ
  numeric_grade : Option ℚ
  pollscore : Option ℚ
  hypothetical : Option Bool
deriving DecidableEq, Repr

/-- Output row of `SimplifiedPollingProcessor.filter_and_clean_core_data`:
the raw columns it rewrites plus the columns it adds.  `pct` stays optional
(the column is not rewritten, only filtered on); the cleaned columns are
total because the source fills all their missing values. -/
structure CleanRow where
  candidate_name : String
  pct : Option ℚ
  population_clean : String
  geographic_scope : String
  sample_size : ℚ
  numeric_grade : ℚ
  pollscore : ℚ
  hypothetical : Bool
deriving DecidableEq, Repr

/-! ## Row filters (claim C1)

The simplified processor filters on raw candidate names and on `pct`
(`filter_and_clean_core_data`, boolean mask); the modular variant first
strips whitespace from candidate names and then filters on membership only
(`cleaners.filter_main_candidates`). -/

/-- Boolean mask of `filter_and_clean_core_data`:
`candidate_name.isin(MAIN_CANDIDATES) & pct.notna() & (pct >= 0) & (pct <= 100)`.
No whitespace trimming happens anywhere in the simplified pipeline. -/
def keep_core (r : RawRow) : Bool :=
  MAIN_CANDIDATES.contains r.candidate_name &&
    match r.pct with
    | none => false
    | some p => decide (0 ≤ p) && decide (p ≤ 100)

/-- Column cleaning of `filter_and_clean_core_data`, applied to each kept
row: population mapped through `POPULATION_MAPPING` with unmapped and
missing codes filled with `"Other"`; geographic scope from `state`;
`sample_size` filled with 1000 then clipped to `[50, 10000]`;
`numeric_grade` filled with 2.5, `pollscore` with 1.0, `hypothetical`
with `False`. -/
def clean_core_row (r : RawRow) : CleanRow :=
  { candidate_name := r.candidate_name
    pct := r.pct
    population_clean := ((r.population.bind
      (fun pop => List.lookup pop POPULATION_MAPPING)).getD "Other")
    geographic_scope :=
      match r.state with
      | none => "National"
      | some s => if SWING_STATES.contains s then "Swing State" else "Other State"
    sample_size := min (max (r.sample_size.getD 1000) 50) 10000
    numeric_grade := r.numeric_grade.getD (5/2)
    pollscore := r.pollscore.getD 1
    hypothetical := r.hypothetical.getD false }

/-- `SimplifiedPollingProcessor.filter_and_clean_core_data`: filter with the
boolean mask, then rewrite and add columns on the kept rows. -/
def filter_and_clean_core_data (rows : List RawRow) : List CleanRow :=
  (rows.filter keep_core).map clean_core_row

/-- Whitespace stripping step of `cleaners.filter_main_candidates`
(`df["candidate_name"].str.strip()`). -/
def trimCandidate (r : RawRow) : RawRow :=
  { r with candidate_name := pyStrip r.candidate_name }

/-- `cleaners.filter_main_candidates`: if the filter is requested, strip
candidate names, then keep rows whose (stripped) name is a main candidate.
The `candidate_name` column is always present in this model, so the
source's column-existence guard is always taken.  No condition on `pct`
is checked here. -/
def filter_main_candidates (rows : List RawRow) (apply_filter : Bool) :
    List RawRow :=
  if !apply_filter then rows
  else (rows.map trimCandidate).filter
    (fun r => MAIN_CANDIDATES.contains r.candidate_name)

/-! ## Population normalizers (claim C8) -/

/-- Simplified processor: `population.map(POPULATION_MAPPING).fillna("Other")`. -/
def population_clean_simplified (pop : Option String) : String :=
  ((pop.bind (fun s => List.lookup s POPULATION_MAPPING)).getD "Other")

/-- Modular variant: `population.str.lower().map(population_mapping)` then
`.fillna("All adults")`. -/
def population_clean_modular (pop : Option String) : String :=
  (((pop.map pyLower).bind
    (fun s => List.lookup s population_mapping_modular)).getD "All adults")

/-! ## Campaign phase by day-offset thresholds (claim C4)

`categorize_campaign_phase` inside
`SimplifiedPollingProcessor.create_temporal_features`, applied to the
`days_until_election` column (an integer, missing when the end date is). -/

def categorize_campaign_phase (days_until : Option ℤ) : String :=
  match days_until with
  | none => "Unknown"
  | some d =>
    if d < 0 then "Post-Election"
    else if d ≤ 30 then "Final Month"
    else if d ≤ 100 then "Final Stretch"
    else if d ≤ 200 then "Fall Campaign"
    else if d ≤ 365 then "Primary Season"
    else "Early Campaign"

/-- Campaign phase bucketing as worded by the spec (§4.4): fixed thresholds
evaluated in order — missing→"Unknown"; <0→"Post-Election"; ≤30→"Final
Month"; ≤100→"Final Stretch"; ≤200→"Fall Campaign"; ≤365→"Primary Season";
else→"Early Campaign".  Stated separately from the source transcription so
the two can be compared. -/
def campaignPhaseSpec (days_until : Option ℤ) : String :=
  match days_until with
  | none => "Unknown"
  | some d =>
    if d < 0 then "Post-Election"
    else if d ≤ 30 then "Final Month"
    else if d ≤ 100 then "Final Stretch"
    else if d ≤ 200 then "Fall Campaign"
    else if d ≤ 365 then "Primary Season"
    else "Early Campaign"

/-- Label set of the documented threshold-based campaign-phase bucketing:
exactly the seven labels listed in spec §4.4 and produced by
`categorize_campaign_phase`. -/
def thresholdPhaseLabels : List String :=
  ["Unknown", "Post-Election", "Final Month", "Final Stretch",
   "Fall Campaign", "Primary Season", "Early Campaign"]

/-! ## Quality bucketing of the modular variant (claims C6, C10)

Transcribed from `feature_engineering.py`.  `_categorize_pollscore` has an
`if score < -3 or score > 3` branch that only logs and does not return, so
the function falls off its end and returns Python `None` for such scores:
that is the `none` below. -/

def _categorize_sample_size (size : Option ℚ) : String :=
  match size with
  | none => "Unknown"
  | some s =>
    if s < 500 then "Small (<500)"
    else if s < 1000 then "Medium (500-999)"
    else if s < 2000 then "Large (1000-1999)"
    else "Very Large (2000+)"

def _categorize_grade (grade : Option ℚ) : String :=
  match grade with
  | none => "Unrated"
  | some g =>
    if g ≥ 3 then "A-grade"
    else if g ≥ 2 then "B-grade"
    else if g ≥ 1 then "C-grade"
    else "D/F-grade"

def _categorize_pollscore (score : Option ℚ) : Option String :=
  match score with
  | none => some "Unrated"
  | some s =>
    if s < -3 ∨ s > 3 then none
    else if s ≤ -1 then some "High Quality"
    else if s ≥ 0 then some "Good Quality"
    else if s ≥ 1 then some "Lower Quality"
    else some "Very Low Quality"

/-- Row of the modular pipeline at its quality stage, restricted to the
columns `add_quality_metrics` reads and the category columns it writes.
Its margin-of-error and confidence-interval columns are real-valued and are
modelled separately (see `_calculate_margin_of_error` and
`_calculate_confidence_interval` below). -/
structure ModRow where
  sample_size : Option ℚ
  numeric_grade : Option ℚ
  pollscore : Option ℚ
  sample_size_category : Option String
  pollster_grade_category : Option String
  pollscore_category : Option String
deriving DecidableEq, Repr

/-- Category-column part of `feature_engineering.add_quality_metrics`: each
row gets its three bucket labels; no other column is touched — in
particular `sample_size` is never filled or clipped in the modular
pipeline. -/
def add_quality_metrics (rows : List ModRow) : List ModRow :=
  rows.map fun r =>
    { r with
      sample_size_category := some (_categorize_sample_size r.sample_size)
      pollster_grade_category := some (_categorize_grade r.numeric_grade)
      pollscore_category := _categorize_pollscore r.pollscore }

/-! ## Margin of error and confidence intervals (claims C2, C3)

The modular variant's `_calculate_margin_of_error` and
`_calculate_confidence_interval` live in `feature_engineering.py`; the
simplified processor computes its own margin of error and unclamped bounds
inline in `calculate_statistical_measures`. -/

/-- Modelled from the spec: the two-sided critical value for the configured
95% confidence level.  The source obtains it from the external library call
`scipy.stats.norm.ppf(1 - alpha/2)` with `alpha = 1 - 0.95`; the spec (§4.5)
gives its value as z ≈ 1.959964. -/
noncomputable def criticalValue95 : ℝ := 1.959964

/-- `feature_engineering._calculate_margin_of_error` at the configured 95%
confidence level: missing (`np.nan`) when the sample size is absent or
non-positive, otherwise `critical_value * sqrt(p * (1 - p) / n) * 100`. -/
noncomputable def _calculate_margin_of_error (sample_size : Option ℝ) (p : ℝ) :
    Option ℝ :=
  match sample_size with
  | none => none
  | some n =>
    if n ≤ 0 then none
    else some (criticalValue95 * Real.sqrt (p * (1 - p) / n) * 100)

/-- Margin of error of the simplified processor
(`calculate_statistical_measures`): `1.96 * sqrt(pct * (100 - pct) / n)`,
with `pct` on the 0–100 scale. -/
noncomputable def margin_of_error_simplified (pct sample_size : ℝ) : ℝ :=
  1.96 * Real.sqrt (pct * (100 - pct) / sample_size)

/-- Simplified processor's lower confidence bound: `pct - margin_of_error`,
with no clamping whatsoever. -/
noncomputable def ci_lower_simplified (pct sample_size : ℝ) : ℝ :=
  pct - margin_of_error_simplified pct sample_size

/-- Simplified processor's upper confidence bound: `pct + margin_of_error`,
also unclamped. -/
noncomputable def ci_upper_simplified (pct sample_size : ℝ) : ℝ :=
  pct + margin_of_error_simplified pct sample_size

/-- `feature_engineering._calculate_confidence_interval`: lower bound
`(pct - moe).clip(lower=0)`, upper bound `(pct + moe).clip(upper=100)`.
The clip operations are exact max/min, modelled over `ℚ`. -/
def _calculate_confidence_interval (pct moe : ℚ) : ℚ × ℚ :=
  (max (pct - moe) 0, min (pct + moe) 100)

/-! ## Campaign phase by calendar windows (claim C9)

The modular variant's `_get_campaign_phase` compares the row's end date
against `Config.CAMPAIGN_PHASES`, a table of (inclusive) calendar windows.
Dates are modelled as year/month/day triples with lexicographic order,
which is how `pd.Timestamp` comparison behaves on calendar dates. -/

structure Date where
  y : ℕ
  m : ℕ
  d : ℕ
deriving DecidableEq, Repr

/-- Lexicographic year/month/day comparison. -/
def Date.le (a b : Date) : Bool :=
  decide (a.y < b.y) || (decide (a.y = b.y) &&
    (decide (a.m < b.m) || (decide (a.m = b.m) && decide (a.d ≤ b.d))))

/-- `Config.CAMPAIGN_PHASES` from `config.py`, in dictionary order. -/
def CAMPAIGN_PHASES : List (String × Date × Date) :=
  [("Early Primary", ⟨2023, 1, 1⟩, ⟨2024, 3, 1⟩),
   ("Primary Season", ⟨2024, 3, 1⟩, ⟨2024, 7, 21⟩),
   ("Harris Entry", ⟨2024, 7, 21⟩, ⟨2024, 9, 1⟩),
   ("General Election", ⟨2024, 9, 1⟩, ⟨2024, 11, 5⟩),
   ("Post-Election", ⟨2024, 11, 5⟩, ⟨2025, 1, 20⟩)]

/-- `feature_engineering._get_campaign_phase`: first window (in dictionary
order) containing the date wins; a date inside no window gets `"Other"`. -/
def _get_campaign_phase (date : Date) : String :=
  match CAMPAIGN_PHASES.find?
      (fun p => Date.le p.2.1 date && Date.le date p.2.2) with
  | some p => p.1
  | none => "Other"

/-! ## Date normalizer (claim C5)

`cleaners.clean_dates` processes each configured date column: it tries each
explicit format of `Config.DATE_FORMATS` with `errors="raise"`, adopting the
first format that parses the whole column; if none does, it falls back to
`pd.to_datetime(col, errors="coerce")`, which parses per value and turns
each unparseable cell into a missing marker (`NaT`).  The format list and
the per-format value parser are abstract parameters here; the fallback
parser is modelled from the spec (§4.1): permissive parsing that accepts
the formats mixed per-value — the actual `pandas.to_datetime` machinery is
external library code. -/

/-- Whole-column strict parse (`errors="raise"` semantics): succeeds only
if every cell parses with the given format. -/
def parseWholeColumn {F D : Type} (parse : F → String → Option D) (f : F) :
    List String → Option (List D)
  | [] => some []
  | v :: rest =>
    match parse f v, parseWholeColumn parse f rest with
    | some d, some ds => some (d :: ds)
    | _, _ => none

/-- Modelled from the spec: the fallback `pd.to_datetime(·, errors="coerce")`
per-value parser, accepting the configured formats mixed per-value and
yielding a missing marker when none applies. -/
def flexibleParse {F D : Type} (parse : F → String → Option D) (fmts : List F)
    (v : String) : Option D :=
  fmts.findSome? (fun f => parse f v)

/-- One column of `cleaners.clean_dates`: adopt the first format that
strictly parses the entire column, else coerce per value. -/
def clean_dates_column {F D : Type} (parse : F → String → Option D)
    (fmts : List F) (col : List String) : List (Option D) :=
  match fmts.findSome? (fun f => parseWholeColumn parse f col) with
  | some ds => ds.map some
  | none => col.map (flexibleParse parse fmts)

/-- Concrete format/value parser instantiation (formats are lengths) used
only to witness the abstract date-normalizer theorem on a closed input. -/
def probeParse (f : ℕ) (s : String) : Option ℕ :=
  if s.length = f then some f else none

/-! ## Finalizer (claim C7)

`SimplifiedPollingProcessor.select_final_columns_and_clean` is
column-generic: it projects the table onto the configured output columns
that are present, sorts by end date descending then candidate name
ascending, and drops fully duplicate rows.  Tables are modelled with rows
as association lists from column names to a `Value` type. -/

inductive Value where
  | vstr : String → Value
  | vnum : ℚ → Value
  | vint : ℤ → Value
  | vbool : Bool → Value
  | vnull : Value
deriving DecidableEq, Repr

/-- Constructor tag, used to order values of different kinds so that the
sort comparator is total on arbitrary rows; on the homogeneous columns of
the actual pipeline only the same-kind cases apply. -/
def Value.rank : Value → ℕ
  | .vstr _ => 0
  | .vnum _ => 1
  | .vint _ => 2
  | .vbool _ => 3
  | .vnull => 4

/-- Total comparison on cell values: same-kind values compare by their
payload order, different kinds by constructor tag. -/
def Value.le : Value → Value → Bool
  | .vstr a, .vstr b => decide (a ≤ b)
  | .vnum a, .vnum b => decide (a ≤ b)
  | .vint a, .vint b => decide (a ≤ b)
  | .vbool a, .vbool b => decide (a ≤ b)
  | a, b => decide (a.rank ≤ b.rank)

/-- A table row: one (column, value) pair per column of its table. -/
abbrev Row := List (String × Value)

/-- Comparison on optional cells (a missing column sorts first). -/
def optValLe : Option Value → Option Value → Bool
  | none, _ => true
  | some _, none => false
  | some a, some b => a.le b

/-- Sort key of `df.sort_values(["end_date", "candidate_name"],
ascending=[False, True])`: end date descending, then candidate name
ascending. -/
def rowLe (a b : Row) : Bool :=
  if List.lookup "end_date" a = List.lookup "end_date" b then
    optValLe (List.lookup "candidate_name" a) (List.lookup "candidate_name" b)
  else
    optValLe (List.lookup "end_date" b) (List.lookup "end_date" a)

/-- Helper of `dropDuplicates`, carrying the set of rows already kept. -/
def dropDuplicatesAux {α : Type} [DecidableEq α] (seen : List α) :
    List α → List α
  | [] => []
  | a :: l =>
    if a ∈ seen then dropDuplicatesAux seen l
    else a :: dropDuplicatesAux (a :: seen) l

/-- `df.drop_duplicates()`: keep the first occurrence of every row. -/
def dropDuplicates {α : Type} [DecidableEq α] (l : List α) : List α :=
  dropDuplicatesAux [] l

/-- `df[available_columns]` on one row: the listed columns, in the listed
order, restricted to those the row has. -/
def project (cols : List String) (r : Row) : Row :=
  cols.filterMap (fun c => (List.lookup c r).map (fun v => (c, v)))

/-- The `final_columns` list of `select_final_columns_and_clean`, in source
order. -/
def final_columns : List String :=
  ["poll_id", "end_date", "start_date", "candidate_name", "pct",
   "state", "geographic_scope", "population_clean", "hypothetical",
   "pollster", "sample_size", "sample_size_category", "methodology_clean",
   "polling_period_days", "is_tracking_poll", "is_internal_poll",
   "is_partisan_poll", "numeric_grade", "pollscore",
   "pollster_grade_category", "pollscore_category", "poll_quality_score",
   "margin_of_error", "ci_lower", "ci_upper", "year", "month", "quarter",
   "month_year", "year_quarter", "week_of_year", "days_until_election",
   "weeks_until_election", "campaign_phase", "key_event", "has_key_event",
   "days_since_harris_entry", "days_from_first_debate"]

structure Table where
  cols : List String
  rows : List Row

/-- `SimplifiedPollingProcessor.select_final_columns_and_clean`: keep the
configured output columns that exist in the table, project every row onto
them, sort by end date descending then candidate name ascending, and drop
fully duplicate rows (keeping first occurrences, as pandas does). -/
def select_final_columns_and_clean (t : Table) : Table :=
  { cols := final_columns.filter (fun c => t.cols.contains c)
    rows := dropDuplicates
      ((t.rows.map
        (project (final_columns.filter (fun c => t.cols.contains c)))).mergeSort
        rowLe) }

/-! ## Concrete rows used by counterexamples -/

/-- Scenario row of the spec: `candidate_name = " Joe Biden "`, `pct = 105`. -/
def rowBiden105 : RawRow :=
  { candidate_name := " Joe Biden ", pct := some 105, population := none,
    state := none, sample_size := none, numeric_grade := none,
    pollscore := none, hypothetical := none }

/-- Same untrimmed name with an in-range percentage. -/
def rowBiden50 : RawRow :=
  { rowBiden105 with pct := some 50 }

/-- A modular-pipeline row whose raw sample size is 7, far below 50. -/
def modRow7 : ModRow :=
  { sample_size := some 7, numeric_grade := none, pollscore := none,
    sample_size_category := none, pollster_grade_category := none,
    pollscore_category := none }

/-! # Helper lemmas -/

/-- Characterization of the simplified processor's row mask. -/
theorem keep_core_eq_true (r : RawRow) :
    keep_core r = true ↔
      r.candidate_name ∈ MAIN_CANDIDATES ∧
        ∃ p, r.pct = some p ∧ 0 ≤ p ∧ p ≤ 100 := by
  unfold keep_core
  rcases h : r.pct with _ | p <;>
    simp [h, List.elem_iff, and_assoc]

/-- A defaulted lookup stays inside any set containing the default and all
values of the association list. -/
theorem getD_lookup_mem {α β : Type} [BEq α] (l : List (α × β)) (a : α) (d : β)
    (target : List β) (hd : d ∈ target) (hvals : ∀ p ∈ l, p.2 ∈ target) :
    (List.lookup a l).getD d ∈ target := by
  induction l with
  | nil => simpa using hd
  | cons hd2 tl ih =>
    rcases hd2 with ⟨k, v⟩
    rw [List.lookup_cons]
    cases h : a == k with
    | true => simpa using hvals (k, v) (List.mem_cons_self _ _)
    | false => exact ih fun p hp => hvals p (List.mem_cons_of_mem _ hp)

theorem value_le_trans (a b c : Value) (h1 : a.le b = true)
    (h2 : b.le c = true) : a.le c = true := by
  cases a <;> cases b <;> cases c <;>
    (try simp only [Value.le, Value.rank, decide_eq_true_eq] at h1 h2 ⊢) <;>
    first
      | exact le_trans h1 h2
      | omega

theorem value_le_total (a b : Value) : a.le b = true ∨ b.le a = true := by
  cases a <;> cases b <;>
    (try simp only [Value.le, Value.rank, decide_eq_true_eq]) <;>
    exact le_total _ _

theorem value_le_antisymm (a b : Value) (h1 : a.le b = true)
    (h2 : b.le a = true) : a = b := by
  cases a <;> cases b <;>
    (try simp only [Value.le, Value.rank, decide_eq_true_eq] at h1 h2) <;>
    first
      | rfl
      | (congr 1; exact le_antisymm h1 h2)
      | omega

theorem optValLe_trans (a b c : Option Value) (h1 : optValLe a b = true)
    (h2 : optValLe b c = true) : optValLe a c = true := by
  rcases a with _ | a <;> rcases b with _ | b <;> rcases c with _ | c <;>
    simp only [optValLe] at h1 h2 ⊢ <;>
    first
      | trivial
      | exact absurd h1 Bool.false_ne_true
      | exact absurd h2 Bool.false_ne_true
      | exact value_le_trans _ _ _ h1 h2

theorem optValLe_total (a b : Option Value) :
    optValLe a b = true ∨ optValLe b a = true := by
  rcases a with _ | a <;> rcases b with _ | b <;> simp only [optValLe] <;>
    first
      | exact Or.inl trivial
      | exact Or.inr trivial
      | exact value_le_total _ _

theorem optValLe_antisymm (a b : Option Value) (h1 : optValLe a b = true)
    (h2 : optValLe b a = true) : a = b := by
  rcases a with _ | a <;> rcases b with _ | b <;>
    simp only [optValLe] at h1 h2 <;>
    first
      | rfl
      | exact absurd h1 Bool.false_ne_true
      | exact absurd h2 Bool.false_ne_true
      | exact congrArg _ (value_le_antisymm _ _ h1 h2)

theorem rowLe_trans (a b c : Row) (h1 : rowLe a b = true)
    (h2 : rowLe b c = true) : rowLe a c = true := by
  unfold rowLe at h1 h2 ⊢
  by_cases hab : List.lookup "end_date" a = List.lookup "end_date" b <;>
    by_cases hbc : List.lookup "end_date" b = List.lookup "end_date" c
  · rw [if_pos hab] at h1
    rw [if_pos hbc] at h2
    rw [if_pos (hab.trans hbc)]
    exact optValLe_trans _ _ _ h1 h2
  · rw [if_pos hab] at h1
    rw [if_neg hbc] at h2
    rw [if_neg (fun h => hbc (hab ▸ h)), hab]
    exact h2
  · rw [if_neg hab] at h1
    rw [if_pos hbc] at h2
    rw [if_neg (fun h => hab (h.trans hbc.symm)), ← hbc]
    exact h1
  · rw [if_neg hab] at h1
    rw [if_neg hbc] at h2
    by_cases hac : List.lookup "end_date" a = List.lookup "end_date" c
    · rw [← hac] at h2
      exact absurd (optValLe_antisymm _ _ h2 h1) hab
    · rw [if_neg hac]
      exact optValLe_trans _ _ _ h2 h1

theorem rowLe_total (a b : Row) : (rowLe a b || rowLe b a) = true := by
  unfold rowLe
  by_cases hab : List.lookup "end_date" a = List.lookup "end_date" b
  · rw [if_pos hab, if_pos hab.symm]
    rcases optValLe_total (List.lookup "candidate_name" a)
      (List.lookup "candidate_name" b) with h | h <;> simp [h]
  · rw [if_neg hab, if_neg (fun h => hab h.symm)]
    rcases optValLe_total (List.lookup "end_date" a)
      (List.lookup "end_date" b) with h | h <;> simp [h]

theorem mem_dropDuplicatesAux {α : Type} [DecidableEq α] (x : α)
    (seen l : List α) : x ∈ dropDuplicatesAux seen l ↔ x ∈ l ∧ x ∉ seen := by
  induction l generalizing seen with
  | nil => simp [dropDuplicatesAux]
  | cons a l ih =>
    unfold dropDuplicatesAux
    by_cases ha : a ∈ seen
    · rw [if_pos ha, ih]
      constructor
      · rintro ⟨hx, hs⟩
        exact ⟨List.mem_cons_of_mem _ hx, hs⟩
      · rintro ⟨hx, hs⟩
        rcases List.mem_cons.mp hx with rfl | hx
        · exact absurd ha hs
        · exact ⟨hx, hs⟩
    · rw [if_neg ha]
      constructor
      · intro hx
        rcases List.mem_cons.mp hx with rfl | hx
        · exact ⟨List.mem_cons_self _ _, ha⟩
        · rcases (ih (a :: seen)).mp hx with ⟨hl, hs⟩
          exact ⟨List.mem_cons_of_mem _ hl,
            fun hc => hs (List.mem_cons_of_mem _ hc)⟩
      · rintro ⟨hx, hs⟩
        rcases List.mem_cons.mp hx with rfl | hx
        · exact List.mem_cons_self _ _
        · by_cases hxa : x = a
          · subst hxa; exact List.mem_cons_self _ _
          · refine List.mem_cons_of_mem _ ((ih (a :: seen)).mpr ⟨hx, ?_⟩)
            intro hc
            rcases List.mem_cons.mp hc with h | h
            · exact hxa h
            · exact hs h

theorem nodup_dropDuplicatesAux {α : Type} [DecidableEq α]
    (seen l : List α) : (dropDuplicatesAux seen l).Nodup := by
  induction l generalizing seen with
  | nil => simp [dropDuplicatesAux]
  | cons a l ih =>
    unfold dropDuplicatesAux
    by_cases ha : a ∈ seen
    · rw [if_pos ha]; exact ih seen
    · rw [if_neg ha]
      refine List.Nodup.cons ?_ (ih (a :: seen))
      intro hc
      rcases (mem_dropDuplicatesAux a (a :: seen) l).mp hc with ⟨_, hs⟩
      exact hs (List.mem_cons_self _ _)

theorem sublist_dropDuplicatesAux {α : Type} [DecidableEq α]
    (seen l : List α) : List.Sublist (dropDuplicatesAux seen l) l := by
  induction l generalizing seen with
  | nil => simp [dropDuplicatesAux]
  | cons a l ih =>
    unfold dropDuplicatesAux
    by_cases ha : a ∈ seen
    · rw [if_pos ha]
      exact (ih seen).cons a
    · rw [if_neg ha]
      exact (ih (a :: seen)).cons₂ a

/-- A strict whole-column parse fails as soon as one cell fails. -/
theorem parseWholeColumn_of_fail {F D : Type} (parse : F → String → Option D)
    (f : F) (col : List String) (v : String) (hv : v ∈ col)
    (hfail : parse f v = none) : parseWholeColumn parse f col = none := by
  induction col with
  | nil => cases hv
  | cons a rest ih =>
    rcases List.mem_cons.mp hv with rfl | hv2
    · unfold parseWholeColumn
      rw [hfail]
    · unfold parseWholeColumn
      rw [ih hv2]
      rcases parse f a with _ | d <;> rfl

/-! # Claim C1 — the row filter -/

/-- C1 counterexample.  The claimed filter contract (keep iff trimmed name
in the candidate set AND pct present AND 0 ≤ pct ≤ 100, so the
`" Joe Biden "`/105 row is always dropped) holds for neither variant: the
modular `filter_main_candidates` keeps the `" Joe Biden "`/105 row (it
never looks at `pct`), and the simplified mask drops the `" Joe Biden "`/50
row that the claimed contract would keep (it never trims names). -/
theorem row_filter_claim_false :
    (filter_main_candidates [rowBiden105] true).map
        (fun r => (r.candidate_name, r.pct)) = [("Joe Biden", some 105)]
    ∧ filter_and_clean_core_data [rowBiden50] = [] := by
  constructor <;> rfl

/-- C1 amended.  The simplified processor's mask keeps a row iff its raw,
untrimmed candidate name is a main candidate and `pct` is present with
`0 ≤ pct ≤ 100` (so its filter drops the `" Joe Biden "`/105 scenario row);
the modular filter strips candidate names and keeps a row iff the stripped
name is a main candidate, with no condition on `pct`. -/
theorem row_filter_amended :
    (∀ (rows : List RawRow) (r : RawRow),
      r ∈ rows.filter keep_core ↔
        r ∈ rows ∧ r.candidate_name ∈ MAIN_CANDIDATES ∧
          ∃ p, r.pct = some p ∧ 0 ≤ p ∧ p ≤ 100)
    ∧ (∀ (rows : List RawRow) (r : RawRow),
      r ∈ filter_main_candidates rows true ↔
        ∃ r0, r0 ∈ rows ∧ r = trimCandidate r0 ∧
          r.candidate_name ∈ MAIN_CANDIDATES)
    ∧ filter_and_clean_core_data [rowBiden105] = [] := by
  refine ⟨fun rows r => ?_, fun rows r => ?_, rfl⟩
  · rw [List.mem_filter, keep_core_eq_true]
  · unfold filter_main_candidates
    simp only [Bool.not_true, Bool.false_eq_true, if_false, List.mem_filter,
      List.mem_map, List.elem_iff]
    constructor
    · rintro ⟨⟨r0, hr0, rfl⟩, hmem⟩
      exact ⟨r0, hr0, rfl, by simpa using hmem⟩
    · rintro ⟨r0, hr0, rfl, hmem⟩
      exact ⟨⟨r0, hr0, rfl⟩, by simpa using hmem⟩

/-! # Claim C2 — the margin-of-error computation -/

/-- C2.  At worst-case p = 1/2 the margin-of-error function returns a
missing value exactly when the sample size is absent or ≤ 0; otherwise it
returns `z * sqrt(p * (1 - p) / n) * 100` for the 95% critical value z; and
at n = 1000 the result lies within 0.05 of 3.1. -/
theorem margin_of_error_spec :
    (∀ n : Option ℝ, _calculate_margin_of_error n (1/2) = none ↔
      n = none ∨ ∃ x, n = some x ∧ x ≤ 0)
    ∧ (∀ x : ℝ, _calculate_margin_of_error (some x) (1/2)
        = if x ≤ 0 then none
          else some (criticalValue95 * Real.sqrt ((1/2) * (1 - 1/2) / x) * 100))
    ∧ (∃ m, _calculate_margin_of_error (some 1000) (1/2) = some m
        ∧ |m - 3.1| ≤ 0.05) := by
  refine ⟨fun n => ?_, fun x => rfl, ?_⟩
  · rcases n with _ | x
    · simp [_calculate_margin_of_error]
    · have h0 : _calculate_margin_of_error (some x) (1/2)
          = if x ≤ 0 then none
            else some (criticalValue95 *
              Real.sqrt ((1/2) * (1 - 1/2) / x) * 100) := rfl
      rw [h0]
      split_ifs with h <;> simp [h]
  · refine ⟨criticalValue95 * Real.sqrt ((1/2) * (1 - 1/2) / 1000) * 100, ?_, ?_⟩
    · have h0 : _calculate_margin_of_error (some 1000) (1/2)
          = if (1000 : ℝ) ≤ 0 then none
            else some (criticalValue95 *
              Real.sqrt ((1/2) * (1 - 1/2) / 1000) * 100) := rfl
      rw [h0, if_neg (by norm_num)]
    · have harg : ((1/2) * (1 - 1/2) / 1000 : ℝ) = 1/4000 := by norm_num
      rw [harg]
      have hsq : Real.sqrt (1/4000) ^ 2 = 1/4000 :=
        Real.sq_sqrt (by norm_num)
      have hnn : (0 : ℝ) ≤ Real.sqrt (1/4000) := Real.sqrt_nonneg _
      have hlow : (0.0158 : ℝ) ≤ Real.sqrt (1/4000) := by nlinarith
      have hupp : Real.sqrt (1/4000) ≤ (0.0159 : ℝ) := by nlinarith
      rw [abs_le]
      simp only [criticalValue95]
      constructor <;> nlinarith

/-! # Claim C3 — confidence-interval bounds -/

/-- C3 counterexample.  The simplified processor clamps neither bound: for
the legitimate post-filter row pct = 1, sample_size = 50 its lower bound
`pct - 1.96 * sqrt(pct * (100 - pct) / n)` is negative, outside the claimed
interval [0, 100]. -/
theorem ci_claim_false : ci_lower_simplified 1 50 < 0 := by
  unfold ci_lower_simplified margin_of_error_simplified
  have h1 : ((1 : ℝ) * (100 - 1) / 50) = 99/50 := by norm_num
  rw [h1]
  have hsq : Real.sqrt (99/50) ^ 2 = 99/50 := Real.sq_sqrt (by norm_num)
  have hnn : (0 : ℝ) ≤ Real.sqrt (99/50) := Real.sqrt_nonneg _
  nlinarith

/-- C3 amended.  The modular variant's `_calculate_confidence_interval`
clips the lower bound below at 0 and the upper bound above at 100, and for
every pct in [0, 100] and every moe ≥ 0 its bounds satisfy
`ci_lower ≤ pct ≤ ci_upper` with both bounds inside [0, 100]; the
simplified processor instead computes unclamped bounds `pct ± moe`, which
can fall outside [0, 100] (see the counterexample). -/
theorem confidence_interval_amended (pct moe : ℚ) (h0 : 0 ≤ pct)
    (h100 : pct ≤ 100) (hm : 0 ≤ moe) :
    (_calculate_confidence_interval pct moe).1 ≤ pct
    ∧ pct ≤ (_calculate_confidence_interval pct moe).2
    ∧ 0 ≤ (_calculate_confidence_interval pct moe).1
    ∧ (_calculate_confidence_interval pct moe).1 ≤ 100
    ∧ 0 ≤ (_calculate_confidence_interval pct moe).2
    ∧ (_calculate_confidence_interval pct moe).2 ≤ 100 := by
  unfold _calculate_confidence_interval
  refine ⟨max_le (by linarith) h0, le_min (by linarith) h100,
    le_max_right _ _, max_le (by linarith) (by norm_num),
    le_min (by linarith) (by norm_num), min_le_right _ _⟩

/-- Witness for `confidence_interval_amended` at pct = 50, moe = 3. -/
theorem confidence_interval_amended_witness :
    (0 ≤ (50 : ℚ)) ∧ ((50 : ℚ) ≤ 100) ∧ (0 ≤ (3 : ℚ))
    ∧ ((_calculate_confidence_interval 50 3).1 ≤ 50
      ∧ 50 ≤ (_calculate_confidence_interval 50 3).2
      ∧ 0 ≤ (_calculate_confidence_interval 50 3).1
      ∧ (_calculate_confidence_interval 50 3).1 ≤ 100
      ∧ 0 ≤ (_calculate_confidence_interval 50 3).2
      ∧ (_calculate_confidence_interval 50 3).2 ≤ 100) :=
  ⟨by decide, by decide, by decide,
    confidence_interval_amended 50 3 (by decide) (by decide) (by decide)⟩

/-! # Claim C4 — campaign phase by day-offset thresholds -/

/-- C4.  `categorize_campaign_phase` agrees pointwise with the spec's
threshold table (it is a pure, total Lean function of
`days_until_election`), and the two required instances hold:
−5 ↦ "Post-Election" and 3000 ↦ "Early Campaign". -/
theorem campaign_phase_thresholds :
    (∀ d : Option ℤ, categorize_campaign_phase d = campaignPhaseSpec d)
    ∧ categorize_campaign_phase (some (-5)) = "Post-Election"
    ∧ categorize_campaign_phase (some 3000) = "Early Campaign" :=
  ⟨fun _ => rfl, by decide, by decide⟩

/-! # Claim C5 — the date normalizer -/

/-- C5.  For any format list and per-format parser, when some cell of the
column matches none of the configured formats, `clean_dates_column` still
returns a full column (same length — the run completes, nothing is
raised); the column is produced by the per-value fallback parser, and the
offending cell itself comes out as the missing marker. -/
theorem clean_dates_coerce {F D : Type} (parse : F → String → Option D)
    (fmts : List F) (col : List String) (v : String)
    (hv : v ∈ col) (hfail : ∀ f ∈ fmts, parse f v = none) :
    (clean_dates_column parse fmts col).length = col.length
    ∧ clean_dates_column parse fmts col = col.map (flexibleParse parse fmts)
    ∧ flexibleParse parse fmts v = none := by
  have hall : ∀ f ∈ fmts, parseWholeColumn parse f col = none :=
    fun f hf => parseWholeColumn_of_fail parse f col v hv (hfail f hf)
  have hnone : fmts.findSome? (fun f => parseWholeColumn parse f col) = none :=
    List.findSome?_eq_none_iff.mpr hall
  have hbody : clean_dates_column parse fmts col
      = col.map (flexibleParse parse fmts) := by
    rw [clean_dates_column, hnone]
  exact ⟨by rw [hbody, List.length_map], hbody,
    List.findSome?_eq_none_iff.mpr hfail⟩

/-- Witness for `clean_dates_coerce` on a concrete two-cell column whose
second cell matches no configured format. -/
theorem clean_dates_coerce_witness :
    ("abc" ∈ ["ab", "abc"])
    ∧ probeParse 2 "abc" = none
    ∧ ((clean_dates_column probeParse [2] ["ab", "abc"]).length
        = (["ab", "abc"] : List String).length
      ∧ clean_dates_column probeParse [2] ["ab", "abc"]
          = (["ab", "abc"] : List String).map (flexibleParse probeParse [2])
      ∧ flexibleParse probeParse [2] "abc" = none) :=
  ⟨by decide, by decide,
    clean_dates_coerce probeParse [2] ["ab", "abc"] "abc" (by decide)
      (by decide)⟩

/-! # Claim C6 — sample-size defaulting and clipping -/

/-- C6 counterexample.  The modular pipeline's quality stage passes
`sample_size` through unchanged, so a raw value of 7 — outside the claimed
interval [50, 10000] — survives it instead of being clipped (and a missing
value would survive as missing instead of being defaulted to 1000). -/
theorem sample_size_claim_false :
    (add_quality_metrics [modRow7]).map (fun r => r.sample_size) = [some 7]
    ∧ ¬(50 ≤ (7 : ℚ)) := by
  refine ⟨rfl, by norm_num⟩

/-- C6 amended.  In the simplified processor's cleaning stage every output
row's `sample_size` lies in [50, 10000] (missing values are defaulted to
1000 and out-of-range values clipped); the modular pipeline applies no such
defaulting or clipping — its quality stage maps `sample_size` through
unchanged. -/
theorem sample_size_amended :
    (∀ rows : List RawRow,
      ((filter_and_clean_core_data rows).all
        (fun r => decide (50 ≤ r.sample_size) && decide (r.sample_size ≤ 10000)))
        = true)
    ∧ (∀ rows : List ModRow,
      (add_quality_metrics rows).map (fun r => r.sample_size)
        = rows.map (fun r => r.sample_size)) := by
  constructor
  · intro rows
    rw [List.all_eq_true]
    rintro r hr
    rw [filter_and_clean_core_data, List.mem_map] at hr
    obtain ⟨a, _, rfl⟩ := hr
    simp only [clean_core_row, Bool.and_eq_true, decide_eq_true_eq]
    constructor
    · exact le_min (le_max_right _ _) (by norm_num)
    · exact min_le_right _ _
  · intro rows
    simp [add_quality_metrics]

/-! # Claim C7 — the finalizer -/

/-- C7.  For every input table, `select_final_columns_and_clean` keeps
exactly the configured output columns that are present (in the configured
order), its output rows are exactly the projections of the input rows with
no duplicate remaining (so two fully identical rows collapse to one), and
the output is sorted by end date descending then candidate name
ascending. -/
theorem finalizer_spec (t : Table) :
    (select_final_columns_and_clean t).cols
        = final_columns.filter (fun c => t.cols.contains c)
    ∧ ((select_final_columns_and_clean t).rows).Nodup
    ∧ (∀ r : Row, r ∈ (select_final_columns_and_clean t).rows ↔
        r ∈ t.rows.map
          (project (final_columns.filter (fun c => t.cols.contains c))))
    ∧ ((select_final_columns_and_clean t).rows).Pairwise
        (fun a b => rowLe a b = true) := by
  refine ⟨rfl, nodup_dropDuplicatesAux _ _, fun r => ?_, ?_⟩
  · show r ∈ dropDuplicates _ ↔ _
    rw [dropDuplicates, mem_dropDuplicatesAux]
    simp [List.mem_mergeSort]
  · show (dropDuplicates _).Pairwise _
    have hs : ((t.rows.map
        (project (final_columns.filter (fun c => t.cols.contains c)))).mergeSort
          rowLe).Pairwise (fun a b => rowLe a b = true) :=
      List.sorted_mergeSort rowLe_trans rowLe_total
        (t.rows.map (project (final_columns.filter (fun c => t.cols.contains c))))
    exact List.Pairwise.sublist (sublist_dropDuplicatesAux _ _) hs

/-! # Claim C8 — population-code normalization -/

/-- C8 counterexample.  The modular variant maps the recognized code `"a"`
to the literal `"(All)"`, which lies outside the claimed three-element
category set (and also differs from the acknowledged `"Other"` default of
the simplified variant). -/
theorem population_clean_claim_false :
    population_clean_modular (some "a") = "(All)"
    ∧ "(All)" ∉ ["Registered voters", "Likely voters", "All adults"]
    ∧ "(All)" ≠ "Other" := by
  refine ⟨rfl, by decide, by decide⟩

/-- C8 amended.  The simplified variant maps v/rv ↦ "Registered voters",
lv ↦ "Likely voters", a ↦ "All adults" and defaults unmapped or missing
codes to "Other"; the modular variant lowercases the code and maps
rv ↦ "Registered voters", lv ↦ "Likely voters", a/all/v ↦ "(All)",
defaulting unmapped or missing codes to "All adults".  Hence every
normalized population category lies in {Registered voters, Likely voters,
All adults, Other, (All)} — not in the claimed three-element set. -/
theorem population_clean_amended :
    (∀ pop : Option String,
      population_clean_simplified pop
        ∈ ["Registered voters", "Likely voters", "All adults", "Other"])
    ∧ (∀ pop : Option String,
      population_clean_modular pop
        ∈ ["(All)", "Registered voters", "Likely voters", "All adults"])
    ∧ population_clean_simplified none = "Other"
    ∧ population_clean_modular none = "All adults"
    ∧ population_clean_simplified (some "v") = "Registered voters"
    ∧ population_clean_simplified (some "rv") = "Registered voters"
    ∧ population_clean_simplified (some "lv") = "Likely voters"
    ∧ population_clean_simplified (some "a") = "All adults"
    ∧ population_clean_modular (some "rv") = "Registered voters"
    ∧ population_clean_modular (some "lv") = "Likely voters" := by
  refine ⟨fun pop => ?_, fun pop => ?_, rfl, rfl, rfl, rfl, rfl, rfl, rfl, rfl⟩
  · rcases pop with _ | s
    · simp [population_clean_simplified]
    · exact getD_lookup_mem POPULATION_MAPPING s "Other" _ (by decide)
        (by decide)
  · rcases pop with _ | s
    · simp [population_clean_modular]
    · exact getD_lookup_mem population_mapping_modular (pyLower s)
        "All adults" _ (by decide) (by decide)

/-! # Claim C9 — calendar-window campaign phase -/

/-- C9.  Every end date outside all configured windows — before 2023-01-01
or after 2025-01-20 — is labelled "Other" by the calendar-window variant,
and "Other" appears neither among the configured window names nor in the
documented threshold-based label set. -/
theorem calendar_phase_other (d : Date)
    (h : Date.le ⟨2023, 1, 1⟩ d = false ∨ Date.le d ⟨2025, 1, 20⟩ = false) :
    _get_campaign_phase d = "Other"
    ∧ "Other" ∉ CAMPAIGN_PHASES.map (fun p => p.1)
    ∧ "Other" ∉ thresholdPhaseLabels := by
  obtain ⟨y, m, dd⟩ := d
  simp only [Date.le, Bool.or_eq_false_iff, Bool.and_eq_false_iff,
    decide_eq_false_iff_not, not_lt, decide_eq_true_eq] at h
  refine ⟨?_, by decide, by decide⟩
  have c1 : (Date.le ⟨2023, 1, 1⟩ ⟨y, m, dd⟩
      && Date.le ⟨y, m, dd⟩ ⟨2024, 3, 1⟩) = false := by
    simp only [Date.le, Bool.and_eq_false_iff, Bool.or_eq_false_iff,
      decide_eq_false_iff_not, not_lt, decide_eq_true_eq]
    omega
  have c2 : (Date.le ⟨2024, 3, 1⟩ ⟨y, m, dd⟩
      && Date.le ⟨y, m, dd⟩ ⟨2024, 7, 21⟩) = false := by
    simp only [Date.le, Bool.and_eq_false_iff, Bool.or_eq_false_iff,
      decide_eq_false_iff_not, not_lt, decide_eq_true_eq]
    omega
  have c3 : (Date.le ⟨2024, 7, 21⟩ ⟨y, m, dd⟩
      && Date.le ⟨y, m, dd⟩ ⟨2024, 9, 1⟩) = false := by
    simp only [Date.le, Bool.and_eq_false_iff, Bool.or_eq_false_iff,
      decide_eq_false_iff_not, not_lt, decide_eq_true_eq]
    omega
  have c4 : (Date.le ⟨2024, 9, 1⟩ ⟨y, m, dd⟩
      && Date.le ⟨y, m, dd⟩ ⟨2024, 11, 5⟩) = false := by
    simp only [Date.le, Bool.and_eq_false_iff, Bool.or_eq_false_iff,
      decide_eq_false_iff_not, not_lt, decide_eq_true_eq]
    omega
  have c5 : (Date.le ⟨2024, 11, 5⟩ ⟨y, m, dd⟩
      && Date.le ⟨y, m, dd⟩ ⟨2025, 1, 20⟩) = false := by
    simp only [Date.le, Bool.and_eq_false_iff, Bool.or_eq_false_iff,
      decide_eq_false_iff_not, not_lt, decide_eq_true_eq]
    omega
  have hfind : List.find?
      (fun p => Date.le p.2.1 ⟨y, m, dd⟩ && Date.le ⟨y, m, dd⟩ p.2.2)
      CAMPAIGN_PHASES = none := by
    rw [List.find?_eq_none]
    intro x hx
    simp only [CAMPAIGN_PHASES, List.mem_cons, List.not_mem_nil, or_false] at hx
    rcases hx with rfl | rfl | rfl | rfl | rfl <;>
      simp [c1, c2, c3, c4, c5]
  rw [_get_campaign_phase, hfind]

/-- Witness for `calendar_phase_other` at 2022-12-31, a date before the
first configured window. -/
theorem calendar_phase_other_witness :
    (Date.le ⟨2023, 1, 1⟩ ⟨2022, 12, 31⟩ = false)
    ∧ (_get_campaign_phase ⟨2022, 12, 31⟩ = "Other"
      ∧ "Other" ∉ CAMPAIGN_PHASES.map (fun p => p.1)
      ∧ "Other" ∉ thresholdPhaseLabels) :=
  ⟨by decide, calendar_phase_other ⟨2022, 12, 31⟩ (Or.inl (by decide))⟩

/-! # Claim C10 — pollscore bucketing gap -/

/-- C10.  `_categorize_pollscore` yields a label exactly for missing scores
(labelled "Unrated") and scores inside [−3, 3]; every present score
strictly below −3 or strictly above 3 falls through the source's `if`/`elif`
chain and gets no label at all. -/
theorem pollscore_gap :
    (∀ s : ℚ, (_categorize_pollscore (some s)).isSome = true ↔
      (-3 ≤ s ∧ s ≤ 3))
    ∧ _categorize_pollscore none = some "Unrated" := by
  refine ⟨fun s => ?_, rfl⟩
  have h0 : _categorize_pollscore (some s)
      = if s < -3 ∨ s > 3 then none
        else if s ≤ -1 then some "High Quality"
        else if s ≥ 0 then some "Good Quality"
        else if s ≥ 1 then some "Lower Quality"
        else some "Very Low Quality" := rfl
  rw [h0]
  by_cases h1 : s < -3 ∨ s > 3
  · rw [if_pos h1]
    simp only [Option.isSome_none, Bool.false_eq_true, false_iff]
    rintro ⟨ha, hb⟩
    rcases h1 with h | h <;> linarith
  · have h2 := h1
    push_neg at h2
    rw [if_neg h1]
    split_ifs <;> simp [h2.1, h2.2]

end PollingModel
